import Mathlib

/-!
Verification of `src/read_pipelines.py` from the ADFDocumentationGeneration
repository: a renderer that reads an Azure Data Factory pipeline JSON file
and appends a Markdown summary to an output file.

The embedding models Python's dynamic values where the code depends on them:

* Python strings are modelled as `PyStr`, a text together with an object
  identity (`id : Nat`).  CPython's `is` operator compares identities, while
  `==` compares text.  The string literal `'Expression'` occurring in the
  module source is interned by CPython and is the unique object
  `expressionLiteral` (identity 0); a string produced by `json.load` is a
  fresh object with a different identity even when its text is equal.
* JSON objects are modelled as association lists `List (String × PyVal)`.
* Exceptions (`KeyError`, `TypeError`, `IndexError`, the `json` parse error)
  are modelled with `Except` / an `Option PyError` error component.
* The output file handle (opened in append mode) is modelled by threading
  its current content `String` through every write; a write appends to it.
  A raised exception aborts the remaining writes but keeps what was already
  written (the file is flushed, possibly truncated mid-render).
-/

namespace ADFDoc

/-- A Python string object: its text together with its object identity.
Two `PyStr`s with the same text but different `id` model two distinct
(equal but not identical) string objects. -/
structure PyStr where
  text : String
  id : Nat
deriving DecidableEq, Repr

/-- A Python value as far as this program observes them: a string or a
JSON-style object (dict with string keys). -/
inductive PyVal where
  | str : PyStr → PyVal
  | dict : List (String × PyVal) → PyVal
deriving Repr

/-- The interned string object for the literal `'Expression'` appearing in
the source of `is_expression`.  Identity 0 is reserved for it. -/
def expressionLiteral : PyStr := ⟨"Expression", 0⟩

/-- CPython's `is` operator on two string objects: identity comparison,
not text comparison. -/
def pyIs (a b : PyStr) : Bool := a.id == b.id

/-- Python exceptions observable in this program. -/
inductive PyError where
  | keyError : String → PyError
  | typeError : PyError
  | indexError : PyError
  | jsonDecodeError : PyError
deriving DecidableEq, Repr

/-- `d[k]` on a Python dict: the value under key `k`, or a `KeyError`. -/
def dictLookup (kvs : List (String × PyVal)) (k : String) : Except PyError PyVal :=
  match kvs.find? (fun p => p.1 == k) with
  | some p => .ok p.2
  | none => .error (.keyError k)

/-- `k in d` on a Python dict: key membership. -/
def dictHasKey (kvs : List (String × PyVal)) (k : String) : Bool :=
  kvs.any (fun p => p.1 == k)

/-- `needle in hay` on two Python strings: substring containment. -/
def pyStrContains (hay needle : String) : Bool :=
  decide (needle.toList <:+: hay.toList)

/-- Embeds `is_expression(input)` from `read_pipelines.py`:
```
if 'type' in input:
    return input['type'] is 'Expression'
```
On a dict, `'type' in input` is key membership and the comparison is the
`is` identity test against the interned literal `'Expression'`; when the
key is absent the function falls off the end and returns `None` (modelled
as `Option.none`).  On a string, `'type' in input` is Python substring
containment, and when it holds the subsequent subscript `input['type']`
raises `TypeError` (string indices must be integers). -/
def is_expression (input : PyVal) : Except PyError (Option Bool) :=
  match input with
  | .str s =>
    if pyStrContains s.text "type" then .error .typeError
    else .ok none
  | .dict kvs =>
    if dictHasKey kvs "type" then
      match dictLookup kvs "type" with
      | .ok (.str t) => .ok (some (pyIs t expressionLiteral))
      | .ok (.dict _) => .ok (some false)
      | .error e => .error e
    else .ok none

/-- Embeds `get_expression_value(expr)`: `return expr['value']`.
Subscripting a string with a string key raises `TypeError`; a dict without
the key raises `KeyError`. -/
def get_expression_value (expr : PyVal) : Except PyError PyVal :=
  match expr with
  | .str _ => .error .typeError
  | .dict kvs => dictLookup kvs "value"

/-- Python truthiness of the value returned by `is_expression`:
`None` is falsy, a bool is itself. -/
def truthy : Option Bool → Bool
  | none => false
  | some b => b

/-- Embeds `get_value(input)`:
`return get_expression_value(input) if is_expression(input) else input`. -/
def get_value (input : PyVal) : Except PyError PyVal :=
  match is_expression input with
  | .error e => .error e
  | .ok r => if truthy r then get_expression_value input else .ok input

mutual

/-- Python `str()` of a value, as used by `'...{0}...'.format(query)`:
a string formats as its text; a dict formats as its repr. -/
def pyFormat : PyVal → String
  | .str s => s.text
  | .dict kvs => "\x7b" ++ pyFormatEntries kvs ++ "\x7d"

/-- repr of the entries of a dict, comma separated (inner strings quoted). -/
def pyFormatEntries : List (String × PyVal) → String
  | [] => ""
  | [(k, .str s)] => "'" ++ k ++ "': '" ++ s.text ++ "'"
  | [(k, .dict kvs)] => "'" ++ k ++ "': " ++ pyFormat (.dict kvs)
  | (k, .str s) :: p :: rest => "'" ++ k ++ "': '" ++ s.text ++ "', " ++ pyFormatEntries (p :: rest)
  | (k, .dict kvs) :: p :: rest => "'" ++ k ++ "': " ++ pyFormat (.dict kvs) ++ ", " ++ pyFormatEntries (p :: rest)

end

/-- One entry of an activity's `dependsOn` list: `dep['activity']` and
`dep['dependencyConditions']` as accessed by `read_activity_dependencies`. -/
structure Dependency where
  activity : String
  dependencyConditions : List String
deriving DecidableEq, Repr

/-- `act['typeProperties']`: the only key the program reads from it is
`source`; `source = none` models the `source` key being absent. -/
structure TypeProperties where
  source : Option (List (String × PyVal))
deriving Repr

/-- One activity object, with exactly the fields the program accesses.
`description = none` models the `description` key being absent;
`typeProperties = none` models the `typeProperties` key being absent
(its lookup in `read_query` then raises `KeyError`). -/
structure Activity where
  name : String
  type : String
  description : Option String
  typeProperties : Option TypeProperties
  dependsOn : List Dependency
deriving Repr

/-- The parsed pipeline document: `name`, `properties.description`
(optional) and `properties.activities`. -/
structure PipelineDoc where
  name : String
  description : Option String
  activities : List Activity
deriving Repr

/-- The `supported_types` mapping local to `read_query`, flattened to
source-type tag ↦ query field name. -/
def supported_types : List (String × String) :=
  [("SqlServerSource", "sqlReaderQuery"), ("OracleSource", "oracleReaderQuery")]

/-- A write step on the output file: takes the current content, returns the
new content together with the exception raised (if any).  A raised
exception keeps the content written so far. -/
abbrev WriteStep := String → String × Option PyError

/-- Sequencing of write steps: the second runs only if the first did not
raise. -/
def andThenW (r : String × Option PyError) (g : WriteStep) : String × Option PyError :=
  match r with
  | (s, none) => g s
  | (s, some e) => (s, some e)

/-- Embeds `read_activity_description(pipelines_file, act)`: writes
`'Description: {0}\n'` when the `description` key is present. -/
def read_activity_description (act : Activity) : WriteStep := fun file =>
  match act.description with
  | some d => (file ++ "Description: " ++ d ++ "\n", none)
  | none => (file, none)

/-- Embeds `.replace(' ', '-')` as called on the upstream activity name:
the pattern is the single character `' '`, so the replacement is
character-wise substitution of every space by a hyphen. -/
def replaceSpaces (s : String) : String :=
  String.mk (s.toList.map (fun c => if c = ' ' then '-' else c))

/-- The link line written for one dependency:
`'\n   * [{0}]({1}) ({2}) \n'` with the upstream name, `'#' +` the name with
spaces replaced by hyphens, and the first dependency condition. -/
def depLine (dep : Dependency) (c : String) : String :=
  "\n   * [" ++ dep.activity ++ "](" ++ ("#" ++ replaceSpaces dep.activity) ++ ") (" ++ c ++ ") \n"

/-- The per-dependency loop of `read_activity_dependencies`: writes one
link line per entry; `dep['dependencyConditions'][0]` raises `IndexError`
on an empty list, aborting before that entry's line is written. -/
def writeDeps (deps : List Dependency) : WriteStep := fun file =>
  match deps with
  | [] => (file, none)
  | dep :: rest =>
    match dep.dependencyConditions with
    | [] => (file, some .indexError)
    | c :: _ => writeDeps rest (file ++ depLine dep c)

/-- Embeds `read_activity_dependencies(pipelines_file, act)`: when
`len(act['dependsOn']) > 0`, writes the `'\n   Dependencies:'` label and
then one line per dependency. -/
def read_activity_dependencies (act : Activity) : WriteStep := fun file =>
  if act.dependsOn.length > 0 then
    writeDeps act.dependsOn (file ++ "\n   Dependencies:")
  else (file, none)

/-- Embeds `read_query(pipelines_file, act)`: looks up
`act['typeProperties']` (raising `KeyError` when absent), checks
`'source' in act['typeProperties']`, reads `source['type']`, and when that
tag is a key of `supported_types` resolves the mapped query field through
`get_value` and writes the collapsible query block.  A dict-valued
`source['type']` is unhashable, so its membership test in the
`supported_types` dict raises `TypeError`. -/
def read_query (act : Activity) : WriteStep := fun file =>
  match act.typeProperties with
  | none => (file, some (.keyError "typeProperties"))
  | some tp =>
    match tp.source with
    | none => (file, none)
    | some src =>
      match dictLookup src "type" with
      | .error e => (file, some e)
      | .ok (.dict _) => (file, some .typeError)
      | .ok (.str st) =>
        match supported_types.find? (fun p => p.1 == st.text) with
        | none => (file, none)
        | some entry =>
          match dictLookup src entry.2 with
          | .error e => (file, some e)
          | .ok qv =>
            match get_value qv with
            | .error e => (file, some e)
            | .ok q =>
              (file ++ "\n<details>\n" ++ "\n<summary>Query</summary>\n"
                    ++ "\n``` sql\n" ++ pyFormat q ++ "\n```\n"
                    ++ "\n</details>\n", none)

/-- Embeds `read_activity(pipelines_file, act)`: the bullet line
`'\n * Name: __{0}__, Type: {1}  \n'`, then the description, query and
dependency sub-steps in order. -/
def read_activity (act : Activity) : WriteStep := fun file =>
  andThenW (read_activity_description act
      (file ++ "\n * Name: __" ++ act.name ++ "__, Type: " ++ act.type ++ "  \n"))
    (fun s => andThenW (read_query act s) (read_activity_dependencies act))

/-- The `for act in pipelines_data['properties']['activities']` loop. -/
def read_activities (acts : List Activity) : WriteStep := fun file =>
  match acts with
  | [] => (file, none)
  | a :: rest => andThenW (read_activity a file) (read_activities rest)

/-- The header part of `read_pipeline`: `'\n\n ## %s \n'` with the name,
the conditional `'\n Description: {0} \n'` line, and `'\n\n ### Steps \n'`. -/
def pipeline_header (doc : PipelineDoc) : String :=
  "\n\n ## " ++ doc.name ++ " \n"
    ++ (match doc.description with
        | some d => "\n Description: " ++ d ++ " \n"
        | none => "")
    ++ "\n\n ### Steps \n"

/-- Embeds `read_pipeline(pipeline_file_name, markdown_file_name)`.  The
markdown file is opened for append (content untouched) and `json.load`
runs before any write, so a parse failure (`loaded = .error e`) propagates
with the output file unchanged.  On success the header is written and each
activity is rendered in document order. -/
def read_pipeline (loaded : Except PyError PipelineDoc) : WriteStep := fun file =>
  match loaded with
  | .error e => (file, some e)
  | .ok doc => read_activities doc.activities (file ++ pipeline_header doc)

/-! ### Well-formedness

The predicate under which the render is exception-free and hits none of
the resolver defects: query values are plain strings (whose text does not
contain `"type"` as a substring, see `get_value` on strings) or tagged
expression objects whose `type` marker is the interned literal string
object (see `is_expression`), sources carry a string `type`, mapped
sources carry their query field, and dependency condition lists are
non-empty. -/

/-- A well-formed query field value: a plain string without `"type"` as a
substring, or a `\x7btype, value\x7d` object whose tag is the interned
`'Expression'` object. -/
def WFQueryVal : PyVal → Bool
  | .str s => !(pyStrContains s.text "type")
  | .dict kvs =>
    match dictLookup kvs "type", dictLookup kvs "value" with
    | .ok (.str t), .ok _ => t.text == expressionLiteral.text && t.id == expressionLiteral.id
    | _, _ => false

/-- A well-formed source object: its `type` is a string, and when that tag
is recognized the mapped query field is present and well formed. -/
def WFSource (src : List (String × PyVal)) : Bool :=
  match dictLookup src "type" with
  | .ok (.str t) =>
    (match supported_types.find? (fun p => p.1 == t.text) with
     | some entry =>
       match dictLookup src entry.2 with
       | .ok qv => WFQueryVal qv
       | .error _ => false
     | none => true)
  | _ => false

/-- A well-formed activity: `typeProperties` present, its source (when
present) well formed, every dependency with a non-empty condition list. -/
def WFActivity (act : Activity) : Bool :=
  (match act.typeProperties with
   | none => false
   | some tp =>
     match tp.source with
     | none => true
     | some src => WFSource src)
  && act.dependsOn.all (fun d => !d.dependencyConditions.isEmpty)

/-- A well-formed pipeline document: every activity is well formed. -/
def WFDoc (doc : PipelineDoc) : Bool :=
  doc.activities.all WFActivity

/-! ### Specification-side renderer

Modelled from the spec for the refinement claim about the exact rendered
output: §6 lists the literal fragments, §4.3/§4.4 the activity layout and
query mapping, §4.5 the Expression Resolver with value equality on the
tag.  These definitions follow the spec's words and are compared against
the embedded code. -/

/-- Modelled from the spec (§4.5): the Expression Resolver, with the tag
compared by value equality (same text). -/
def spec_resolve (v : PyVal) : PyVal :=
  match v with
  | .str s => .str s
  | .dict kvs =>
    if dictHasKey kvs "type" then
      match dictLookup kvs "type" with
      | .ok (.str t) =>
        if t.text == "Expression" then
          match dictLookup kvs "value" with
          | .ok w => w
          | .error _ => .dict kvs
        else .dict kvs
      | _ => .dict kvs
    else .dict kvs

/-- Modelled from the spec (§6): the conditional activity description
fragment `Description: \x7bdesc\x7d\n`. -/
def spec_desc_fragment (act : Activity) : String :=
  match act.description with
  | some d => "Description: " ++ d ++ "\n"
  | none => ""

/-- Modelled from the spec (§4.4, §6): the conditional collapsible query
block, emitted only when the source type tag is in the mapping, with the
query text resolved by the Expression Resolver. -/
def spec_query_fragment (act : Activity) : String :=
  match act.typeProperties with
  | none => ""
  | some tp =>
    match tp.source with
    | none => ""
    | some src =>
      match dictLookup src "type" with
      | .ok (.str t) =>
        (match supported_types.find? (fun p => p.1 == t.text) with
         | some entry =>
           match dictLookup src entry.2 with
           | .ok qv =>
             "\n<details>\n" ++ "\n<summary>Query</summary>\n"
               ++ "\n``` sql\n" ++ pyFormat (spec_resolve qv) ++ "\n```\n"
               ++ "\n</details>\n"
           | .error _ => ""
         | none => "")
      | _ => ""

/-- Modelled from the spec (§4.3, §6): one dependency link line — display
text the upstream name, target `#` + the name with spaces as hyphens, the
first condition in parentheses. -/
def spec_dep_line (d : Dependency) : String :=
  "\n   * [" ++ d.activity ++ "](#" ++ replaceSpaces d.activity
    ++ ") (" ++ d.dependencyConditions.headD "" ++ ") \n"

/-- Concatenation of a list of strings, in order. -/
def joinStrings : List String → String
  | [] => ""
  | a :: l => a ++ joinStrings l

/-- Modelled from the spec (§4.3, §6): the conditional dependency list,
one label once if any dependencies, then one link line per dependency. -/
def spec_deps_fragment (act : Activity) : String :=
  match act.dependsOn with
  | [] => ""
  | deps => "\n   Dependencies:" ++ joinStrings (deps.map spec_dep_line)

/-- Modelled from the spec (§4.3, §6): one activity's fragments — bullet
line, then conditional description, query block and dependency list. -/
def spec_activity_fragment (act : Activity) : String :=
  "\n * Name: __" ++ act.name ++ "__, Type: " ++ act.type ++ "  \n"
    ++ spec_desc_fragment act ++ spec_query_fragment act ++ spec_deps_fragment act

/-- Modelled from the spec (§6): the full rendered text of one pipeline —
header, conditional description, Steps heading, then every activity's
fragments in declaration order, and nothing else. -/
def spec_render (doc : PipelineDoc) : String :=
  "\n\n ## " ++ doc.name ++ " \n"
    ++ (match doc.description with
        | some d => "\n Description: " ++ d ++ " \n"
        | none => "")
    ++ "\n\n ### Steps \n"
    ++ joinStrings (doc.activities.map spec_activity_fragment)

/-! ### Helper lemmas about dict access -/

theorem dictHasKey_of_lookup_ok {kvs : List (String × PyVal)} {k : String}
    {v : PyVal} (h : dictLookup kvs k = .ok v) : dictHasKey kvs k = true := by
  unfold dictLookup at h
  unfold dictHasKey
  cases hf : List.find? (fun p => p.1 == k) kvs with
  | none => rw [hf] at h; exact Except.noConfusion h
  | some p =>
    have hp := List.find?_some hf
    have hm := List.mem_of_find?_eq_some hf
    exact List.any_eq_true.mpr ⟨p, hm, hp⟩

theorem dictLookup_of_hasKey_false {kvs : List (String × PyVal)} {k : String}
    (h : dictHasKey kvs k = false) : dictLookup kvs k = .error (.keyError k) := by
  unfold dictLookup
  cases hf : List.find? (fun p => p.1 == k) kvs with
  | none => rfl
  | some p =>
    exfalso
    have hp := List.find?_some hf
    have hm := List.mem_of_find?_eq_some hf
    unfold dictHasKey at h
    rw [List.any_eq_true.mpr ⟨p, hm, hp⟩] at h
    exact Bool.noConfusion h

/-- On a well-formed query value the embedded resolver agrees with the
spec's value-equality resolver and raises nothing. -/
theorem get_value_wf {qv : PyVal} (h : WFQueryVal qv = true) :
    get_value qv = .ok (spec_resolve qv) := by
  cases qv with
  | str s =>
    simp only [WFQueryVal, Bool.not_eq_true'] at h
    simp [get_value, is_expression, spec_resolve, h, truthy]
  | dict kvs =>
    simp only [WFQueryVal] at h
    cases ht : dictLookup kvs "type" with
    | error e => rw [ht] at h; simp at h
    | ok tv =>
      cases tv with
      | dict kvs2 => rw [ht] at h; simp at h
      | str t =>
        cases hv : dictLookup kvs "value" with
        | error e => rw [ht, hv] at h; simp at h
        | ok w =>
          rw [ht, hv] at h
          simp only [Bool.and_eq_true, beq_iff_eq] at h
          have hid : (t.id == expressionLiteral.id) = true := beq_iff_eq.mpr h.2
          have htx : (t.text == "Expression") = true := beq_iff_eq.mpr h.1
          simp [get_value, is_expression, spec_resolve, pyIs, truthy,
            get_expression_value, dictHasKey_of_lookup_ok ht, ht, hv, hid, htx]

/-! ### Step-by-step agreement of the code with the spec fragments -/

theorem read_activity_description_eq (act : Activity) (s : String) :
    read_activity_description act s = (s ++ spec_desc_fragment act, none) := by
  cases hd : act.description with
  | none => simp [read_activity_description, spec_desc_fragment, hd, String.append_empty]
  | some d => simp [read_activity_description, spec_desc_fragment, hd, String.append_assoc]

theorem read_query_wf {act : Activity} {tp : TypeProperties}
    (htp : act.typeProperties = some tp)
    (hs : (match tp.source with | none => true | some src => WFSource src) = true)
    (s : String) :
    read_query act s = (s ++ spec_query_fragment act, none) := by
  cases hsrc : tp.source with
  | none =>
    simp [read_query, spec_query_fragment, htp, hsrc, String.append_empty]
  | some src =>
    rw [hsrc] at hs
    simp only [] at hs
    simp only [WFSource] at hs
    cases ht : dictLookup src "type" with
    | error e => rw [ht] at hs; simp at hs
    | ok tv =>
      cases tv with
      | dict kvs2 => rw [ht] at hs; simp at hs
      | str t =>
        rw [ht] at hs
        simp only [] at hs
        cases hfind : supported_types.find? (fun p => p.1 == t.text) with
        | none =>
          simp [read_query, spec_query_fragment, htp, hsrc, ht, hfind, String.append_empty]
        | some entry =>
          rw [hfind] at hs
          simp only [] at hs
          cases hq : dictLookup src entry.2 with
          | error e => rw [hq] at hs; simp at hs
          | ok qv =>
            rw [hq] at hs
            simp only [] at hs
            have hg := get_value_wf hs
            simp [read_query, spec_query_fragment, htp, hsrc, ht, hfind, hq, hg,
              String.append_assoc]

theorem sharp_append (z : String) : "](" ++ ("#" ++ z) = "](#" ++ z := by
  rw [← String.append_assoc]
  rw [show ("](" ++ "#" : String) = "](#" from rfl]

theorem writeDeps_eq : ∀ (deps : List Dependency),
    (∀ d ∈ deps, d.dependencyConditions ≠ []) →
    ∀ s, writeDeps deps s = (s ++ joinStrings (deps.map spec_dep_line), none)
  | [], _, s => by simp [writeDeps, joinStrings, String.append_empty]
  | dep :: rest, h, s => by
    cases hc : dep.dependencyConditions with
    | nil => exact absurd hc (h dep (List.mem_cons_self dep rest))
    | cons c cs =>
      have ih := writeDeps_eq rest (fun d hd => h d (List.mem_cons_of_mem dep hd))
      simp only [writeDeps, hc]
      rw [ih]
      have hline : depLine dep c = spec_dep_line dep := by
        simp [depLine, spec_dep_line, hc, String.append_assoc, sharp_append]
      simp [hline, joinStrings, String.append_assoc]

theorem read_activity_dependencies_eq (act : Activity)
    (h : ∀ d ∈ act.dependsOn, d.dependencyConditions ≠ []) (s : String) :
    read_activity_dependencies act s = (s ++ spec_deps_fragment act, none) := by
  cases hd : act.dependsOn with
  | nil => simp [read_activity_dependencies, spec_deps_fragment, hd, String.append_empty]
  | cons dep rest =>
    have h2 : ∀ d ∈ dep :: rest, d.dependencyConditions ≠ [] := by
      rw [hd] at h; exact h
    simp [read_activity_dependencies, spec_deps_fragment, hd, writeDeps_eq (dep :: rest) h2,
      String.append_assoc]

theorem read_activity_eq {act : Activity} (h : WFActivity act = true) (s : String) :
    read_activity act s = (s ++ spec_activity_fragment act, none) := by
  simp only [WFActivity, Bool.and_eq_true] at h
  obtain ⟨h1, h2⟩ := h
  have hdeps : ∀ d ∈ act.dependsOn, d.dependencyConditions ≠ [] := by
    intro d hd
    have := List.all_eq_true.mp h2 d hd
    simpa using this
  cases htp : act.typeProperties with
  | none => rw [htp] at h1; simp at h1
  | some tp =>
    rw [htp] at h1
    simp only [] at h1
    unfold read_activity
    rw [read_activity_description_eq]
    simp only [andThenW]
    rw [read_query_wf htp h1]
    simp only [andThenW]
    rw [read_activity_dependencies_eq act hdeps]
    simp [spec_activity_fragment, String.append_assoc]

theorem read_activities_eq : ∀ (acts : List Activity),
    (∀ a ∈ acts, WFActivity a = true) →
    ∀ s, read_activities acts s = (s ++ joinStrings (acts.map spec_activity_fragment), none)
  | [], _, s => by simp [read_activities, joinStrings, String.append_empty]
  | a :: rest, h, s => by
    have ih := read_activities_eq rest (fun x hx => h x (List.mem_cons_of_mem a hx))
    simp only [read_activities]
    rw [read_activity_eq (h a (List.mem_cons_self a rest))]
    simp only [andThenW]
    rw [ih]
    simp [joinStrings, String.append_assoc]

/-! ### The writers only append

The effect of every write step on a longer initial file content is the
same appended text, and the raised exception does not depend on the prior
content: the emitted bytes are a function of the document alone. -/

/-- A write step only appends: prepending `s` to the initial content
prepends `s` to the result and leaves the error unchanged. -/
def AppendsOnly (w : WriteStep) : Prop :=
  ∀ s t, w (s ++ t) = (s ++ (w t).1, (w t).2)

theorem appendsOnly_read_activity_description (act : Activity) :
    AppendsOnly (read_activity_description act) := by
  intro s t
  cases hd : act.description <;>
    simp [read_activity_description, hd, String.append_assoc]

theorem appendsOnly_read_query (act : Activity) :
    AppendsOnly (read_query act) := by
  intro s t
  unfold read_query
  cases htp : act.typeProperties with
  | none => simp
  | some tp =>
    cases hsrc : tp.source with
    | none => simp [hsrc]
    | some src =>
      cases ht : dictLookup src "type" with
      | error e => simp [hsrc, ht]
      | ok tv =>
        cases tv with
        | dict kvs2 => simp [hsrc, ht]
        | str st2 =>
          cases hfind : supported_types.find? (fun p => p.1 == st2.text) with
          | none => simp [hsrc, ht, hfind]
          | some entry =>
            cases hq : dictLookup src entry.2 with
            | error e => simp [hsrc, ht, hfind, hq]
            | ok qv =>
              cases hgv : get_value qv with
              | error e => simp [hsrc, ht, hfind, hq, hgv]
              | ok q => simp [hsrc, ht, hfind, hq, hgv, String.append_assoc]

theorem appendsOnly_writeDeps : ∀ (deps : List Dependency), AppendsOnly (writeDeps deps)
  | [] => by intro s t; simp [writeDeps]
  | dep :: rest => by
    intro s t
    cases hc : dep.dependencyConditions with
    | nil => simp [writeDeps, hc]
    | cons c cs =>
      have ih := appendsOnly_writeDeps rest
      simp only [writeDeps, hc]
      rw [String.append_assoc s t]
      exact ih s (t ++ depLine dep c)

theorem appendsOnly_read_activity_dependencies (act : Activity) :
    AppendsOnly (read_activity_dependencies act) := by
  intro s t
  unfold read_activity_dependencies
  by_cases h : act.dependsOn.length > 0
  · rw [if_pos h, if_pos h, String.append_assoc s t]
    exact appendsOnly_writeDeps act.dependsOn s (t ++ "\n   Dependencies:")
  · rw [if_neg h, if_neg h]

theorem appendsOnly_andThen {f g : WriteStep} (hf : AppendsOnly f) (hg : AppendsOnly g) :
    AppendsOnly (fun s => andThenW (f s) g) := by
  intro s t
  rcases hfe : f t with ⟨s1, e1⟩
  have hst := hf s t
  rw [hfe] at hst
  simp only [hst, hfe]
  cases e1 with
  | none => simp only [andThenW]; exact hg s s1
  | some e => simp only [andThenW]

theorem appendsOnly_precompose {w : WriteStep} (hw : AppendsOnly w) (b : String) :
    AppendsOnly (fun file => w (file ++ b)) := by
  intro s t
  simp only []
  rw [String.append_assoc s t b]
  exact hw s (t ++ b)

theorem appendsOnly_read_activity (act : Activity) : AppendsOnly (read_activity act) := by
  have hg : AppendsOnly (fun s => andThenW (read_query act s) (read_activity_dependencies act)) :=
    appendsOnly_andThen (appendsOnly_read_query act) (appendsOnly_read_activity_dependencies act)
  have hf : AppendsOnly (fun file =>
      read_activity_description act
        (file ++ ("\n * Name: __" ++ act.name ++ "__, Type: " ++ act.type ++ "  \n"))) :=
    appendsOnly_precompose (appendsOnly_read_activity_description act) _
  intro s t
  have h := appendsOnly_andThen hf hg s t
  simpa [read_activity, String.append_assoc] using h

theorem appendsOnly_read_activities : ∀ (acts : List Activity),
    AppendsOnly (read_activities acts)
  | [] => by intro s t; simp [read_activities]
  | a :: rest => by
    intro s t
    have ih := appendsOnly_read_activities rest
    have ha := appendsOnly_read_activity a
    have h := appendsOnly_andThen ha ih s t
    simpa [read_activities] using h

theorem appendsOnly_read_pipeline (loaded : Except PyError PipelineDoc) :
    AppendsOnly (read_pipeline loaded) := by
  intro s t
  cases loaded with
  | error e => simp [read_pipeline]
  | ok doc =>
    simp only [read_pipeline]
    rw [String.append_assoc s t]
    exact appendsOnly_read_activities doc.activities s (t ++ pipeline_header doc)

/-! ### Concrete documents used as witnesses -/

/-- A tagged expression object as `json.load` produces it: the text of the
tag is `"Expression"` but the string object is fresh (identity 1), not the
interned module literal (identity 0). -/
def exprTagFresh : PyVal :=
  .dict [("type", .str ⟨"Expression", 1⟩), ("value", .str ⟨"SELECT 1", 2⟩)]

/-- The same tagged expression object, but with the tag being the very
interned literal object. -/
def exprTagInterned : PyVal :=
  .dict [("type", .str expressionLiteral), ("value", .str ⟨"SELECT 1", 2⟩)]

/-- An activity whose source has an unrecognized type tag even though a
query-like field is present. -/
def oddSourceAct : Activity :=
  ⟨"S", "Copy", none,
    some ⟨some [("type", .str ⟨"BlobSource", 7⟩),
                ("sqlReaderQuery", .str ⟨"SELECT 1", 8⟩)]⟩, []⟩

/-- The spec's two-dependency example: conditions `["Succeeded",
"Completed"]` on upstream `A` and `["Failed"]` on upstream `B 2`. -/
def exDepAct : Activity :=
  ⟨"Copy X", "Copy", none, some ⟨none⟩,
    [⟨"A", ["Succeeded", "Completed"]⟩, ⟨"B 2", ["Failed"]⟩]⟩

/-- An activity with a recognized source type but without the mapped query
field. -/
def missingFieldAct : Activity :=
  ⟨"S", "Copy", none, some ⟨some [("type", .str ⟨"SqlServerSource", 9⟩)]⟩, []⟩

/-- The spec's end-to-end example: pipeline `Load Sales` with one activity
`Copy Data` of type `Copy`, description `copies rows`, no source and no
dependencies. -/
def loadSalesDoc : PipelineDoc :=
  ⟨"Load Sales", none, [⟨"Copy Data", "Copy", some "copies rows", some ⟨none⟩, []⟩]⟩

/-! ### The claims -/

/-- C1: the claim states that for every `\x7btype: "Expression", value: v\x7d`
object `get_value` returns `v`, the tag being compared by value equality
(same text), e.g. resolving `\x7btype: "Expression", value: "SELECT 1"\x7d`
yields `"SELECT 1"`.  The code instead compares with `is` (object
identity) against the interned module literal: evaluated on the tag object
as `json.load` builds it (tag text `"Expression"`, fresh identity), the
resolver returns the whole object unchanged and never `"SELECT 1"`; only
the very interned literal object would resolve. -/
theorem get_value_identity_compare_bug :
    get_value exprTagFresh = .ok exprTagFresh
      ∧ (∀ i, get_value exprTagFresh ≠ .ok (.str ⟨"SELECT 1", i⟩))
      ∧ get_value exprTagInterned = .ok (.str ⟨"SELECT 1", 2⟩) := by
  refine ⟨rfl, ?_, rfl⟩
  intro i h
  rw [show get_value exprTagFresh = .ok exprTagFresh from rfl] at h
  injection h with h2
  exact PyVal.noConfusion h2

/-- C2: the claim states that `get_value` returns every plain string
unchanged and is idempotent on plain strings.  The code evaluates
`'type' in input` on the string — a substring test — and then subscripts
the string, raising `TypeError`: any plain string containing `"type"`,
such as `"type"` itself or the query `"SELECT type FROM t"`, crashes the
resolver instead of passing through.  A string free of that substring does
pass through unchanged. -/
theorem get_value_plain_string_crash :
    get_value (.str ⟨"type", 3⟩) = .error .typeError
      ∧ get_value (.str ⟨"SELECT type FROM t", 4⟩) = .error .typeError
      ∧ get_value (.str ⟨"SELECT 1", 5⟩) = .ok (.str ⟨"SELECT 1", 5⟩) :=
  ⟨rfl, rfl, rfl⟩

/-- C3: for an activity whose `typeProperties` is present, if the `source`
key is absent, or the source's `type` tag is not in the
`\x7bSqlServerSource, OracleSource\x7d` mapping, `read_query` writes no query
block and raises no error — regardless of any query-like field present in
the source object. -/
theorem read_query_unrecognized_source_no_output (act : Activity)
    (tp : TypeProperties) (file : String)
    (htp : act.typeProperties = some tp)
    (h : tp.source = none
      ∨ ∃ src t, tp.source = some src
          ∧ dictLookup src "type" = .ok (.str t)
          ∧ supported_types.find? (fun p => p.1 == t.text) = none) :
    read_query act file = (file, none) := by
  rcases h with hnone | ⟨src, t, hsrc, ht, hfind⟩
  · simp [read_query, htp, hnone]
  · simp [read_query, htp, hsrc, ht, hfind]

theorem read_query_unrecognized_source_no_output_witness :
    read_query oddSourceAct "x" = ("x", none)
      ∧ read_query ⟨"N", "Wait", none, some ⟨none⟩, []⟩ "y" = ("y", none) :=
  ⟨read_query_unrecognized_source_no_output oddSourceAct
      ⟨some [("type", .str ⟨"BlobSource", 7⟩), ("sqlReaderQuery", .str ⟨"SELECT 1", 8⟩)]⟩ "x"
      rfl
      (Or.inr ⟨[("type", .str ⟨"BlobSource", 7⟩), ("sqlReaderQuery", .str ⟨"SELECT 1", 8⟩)],
        ⟨"BlobSource", 7⟩, rfl, rfl, rfl⟩),
   read_query_unrecognized_source_no_output ⟨"N", "Wait", none, some ⟨none⟩, []⟩
      ⟨none⟩ "y" rfl (Or.inl rfl)⟩

/-- C4: for a non-empty `dependsOn` list (each entry with at least one
condition, as the code otherwise raises `IndexError`), the writer emits
one `Dependencies:` label and then, per dependency in list order, one link
line: display text the upstream activity's name, link target `#` plus that
name with spaces replaced by hyphens, and only the first element of
`dependencyConditions` in parentheses even when more are present
(`spec_dep_line` takes the head of the list). -/
theorem read_activity_dependencies_emits (act : Activity) (file : String)
    (hne : act.dependsOn ≠ [])
    (hc : ∀ d ∈ act.dependsOn, d.dependencyConditions ≠ []) :
    read_activity_dependencies act file
      = (file ++ "\n   Dependencies:"
          ++ joinStrings (act.dependsOn.map spec_dep_line), none) := by
  have h := read_activity_dependencies_eq act hc file
  rw [h]
  cases hd : act.dependsOn with
  | nil => exact absurd hd hne
  | cons dep rest => simp [spec_deps_fragment, hd, String.append_assoc]

theorem read_activity_dependencies_emits_witness :
    read_activity_dependencies exDepAct ""
      = ("\n   Dependencies:\n   * [A](#A) (Succeeded) \n\n   * [B 2](#B-2) (Failed) \n",
         none) := by
  have h := read_activity_dependencies_emits exDepAct "" (by decide) (by decide)
  rw [h]
  rfl

/-- C5: on every well-formed pipeline document (`WFDoc`: required fields
present, query values plain strings or interned-tag expressions,
dependency condition lists non-empty), the rendered output is exactly the
concatenation of the spec's literal fragments — header, conditional
description, Steps heading, and per activity in declaration order the
bullet, conditional description, conditional query block and conditional
dependency fragments — with no other bytes emitted and no error. -/
theorem read_pipeline_renders_spec_fragments (doc : PipelineDoc) (file : String)
    (h : WFDoc doc = true) :
    read_pipeline (.ok doc) file = (file ++ spec_render doc, none) := by
  have hall : ∀ a ∈ doc.activities, WFActivity a = true := by
    simpa [WFDoc, List.all_eq_true] using h
  have hacts := read_activities_eq doc.activities hall
  simp only [read_pipeline]
  rw [hacts (file ++ pipeline_header doc)]
  have hh : pipeline_header doc ++ joinStrings (doc.activities.map spec_activity_fragment)
      = spec_render doc := by
    unfold pipeline_header spec_render
    cases hdesc : doc.description <;>
      simp [hdesc, String.append_assoc, String.append_empty]
  rw [String.append_assoc, hh]

theorem read_pipeline_renders_spec_fragments_witness :
    WFDoc loadSalesDoc = true
      ∧ read_pipeline (.ok loadSalesDoc) ""
        = ("\n\n ## Load Sales \n\n\n ### Steps \n\n * Name: __Copy Data__, Type: Copy  \nDescription: copies rows\n",
           none) :=
  ⟨rfl, by
    rw [read_pipeline_renders_spec_fragments loadSalesDoc "" rfl]
    rfl⟩

/-- C6: when the input is not well-formed JSON, `json.load` raises before
the first write to the markdown file (which was only opened for append):
the error propagates to the caller unchanged and the output file content
is exactly what it was — zero bytes appended, no recovery, no partial
result. -/
theorem read_pipeline_parse_error_no_output (e : PyError) (file : String) :
    read_pipeline (.error e) file = (file, some e) := rfl

/-- C7: a `Description:` line is emitted iff the description field is
present: the pipeline header carries the `\n Description: … \n` fragment
exactly when `properties.description` is present (even when it is the
empty string), and `read_activity_description` writes `Description: …\n`
exactly when the activity has a `description` key, writing nothing
otherwise. -/
theorem description_line_iff_present (doc : PipelineDoc) (act : Activity) (file : String) :
    (∀ d, doc.description = some d →
      pipeline_header doc
        = "\n\n ## " ++ doc.name ++ " \n" ++ ("\n Description: " ++ d ++ " \n")
            ++ "\n\n ### Steps \n")
    ∧ (doc.description = none →
      pipeline_header doc = "\n\n ## " ++ doc.name ++ " \n" ++ "\n\n ### Steps \n")
    ∧ (∀ d, act.description = some d →
      read_activity_description act file = (file ++ ("Description: " ++ d ++ "\n"), none))
    ∧ (act.description = none →
      read_activity_description act file = (file, none)) := by
  refine ⟨?_, ?_, ?_, ?_⟩
  · intro d hd; simp [pipeline_header, hd, String.append_assoc]
  · intro hd; simp [pipeline_header, hd, String.append_empty, String.append_assoc]
  · intro d hd; simp [read_activity_description, hd, String.append_assoc]
  · intro hd; simp [read_activity_description, hd]

theorem description_line_iff_present_witness :
    pipeline_header ⟨"P", some "", []⟩
        = "\n\n ## " ++ "P" ++ " \n" ++ ("\n Description: " ++ "" ++ " \n")
            ++ "\n\n ### Steps \n"
      ∧ read_activity_description ⟨"A", "Copy", none, none, []⟩ "f" = ("f", none) :=
  ⟨(description_line_iff_present ⟨"P", some "", []⟩ ⟨"A", "Copy", none, none, []⟩ "f").1 "" rfl,
   (description_line_iff_present ⟨"P", some "", []⟩ ⟨"A", "Copy", none, none, []⟩ "f").2.2.2 rfl⟩

/-- C8: when `dependsOn` is empty, the dependency writer emits neither the
`Dependencies:` label nor any dependency line and raises nothing. -/
theorem no_dependencies_no_output (act : Activity) (file : String)
    (h : act.dependsOn = []) :
    read_activity_dependencies act file = (file, none) := by
  simp [read_activity_dependencies, h]

theorem no_dependencies_no_output_witness :
    read_activity_dependencies ⟨"A", "Copy", none, none, []⟩ "f" = ("f", none) :=
  no_dependencies_no_output ⟨"A", "Copy", none, none, []⟩ "f" rfl

/-- C9: the query sub-step raises an uncaught lookup error — aborting the
activity's render — when the activity lacks a `typeProperties` key
(`KeyError` on `act['typeProperties']`), and when the source's type tag is
recognized but the mapped query field is absent (`KeyError` on
`source[query_field_name]`); the query block is not skipped. -/
theorem read_query_lookup_errors (act : Activity) (file : String) :
    (act.typeProperties = none →
      read_query act file = (file, some (.keyError "typeProperties"))
        ∧ (read_activity act file).2 = some (.keyError "typeProperties"))
    ∧ (∀ tp src t entry, act.typeProperties = some tp → tp.source = some src →
        dictLookup src "type" = .ok (.str t) →
        supported_types.find? (fun p => p.1 == t.text) = some entry →
        dictHasKey src entry.2 = false →
        read_query act file = (file, some (.keyError entry.2))
          ∧ (read_activity act file).2 = some (.keyError entry.2)) := by
  have key : ∀ (err : PyError), (∀ s, read_query act s = (s, some err)) →
      (read_activity act file).2 = some err := by
    intro err hrq
    unfold read_activity
    rw [read_activity_description_eq]
    simp only [andThenW]
    rw [hrq]
  constructor
  · intro htp
    have hrq : ∀ s, read_query act s = (s, some (.keyError "typeProperties")) := by
      intro s; simp [read_query, htp]
    exact ⟨hrq file, key _ hrq⟩
  · intro tp src t entry h1 h2 h3 h4 h5
    have hlk : dictLookup src entry.2 = .error (.keyError entry.2) :=
      dictLookup_of_hasKey_false h5
    have hrq : ∀ s, read_query act s = (s, some (.keyError entry.2)) := by
      intro s; simp [read_query, h1, h2, h3, h4, hlk]
    exact ⟨hrq file, key _ hrq⟩

theorem read_query_lookup_errors_witness :
    read_query missingFieldAct "f" = ("f", some (.keyError "sqlReaderQuery"))
      ∧ read_query ⟨"T", "Wait", none, none, []⟩ "f"
        = ("f", some (.keyError "typeProperties")) :=
  ⟨((read_query_lookup_errors missingFieldAct "f").2
      ⟨some [("type", .str ⟨"SqlServerSource", 9⟩)]⟩
      [("type", .str ⟨"SqlServerSource", 9⟩)]
      ⟨"SqlServerSource", 9⟩
      ("SqlServerSource", "sqlReaderQuery")
      rfl rfl rfl rfl rfl).1,
   ((read_query_lookup_errors ⟨"T", "Wait", none, none, []⟩ "f").1 rfl).1⟩

/-- C10: rendering is deterministic and append-only: for every load
result, the text appended to the output file is a function of the parsed
document alone — independent of the prior file content — and the error
outcome likewise, so two runs on the same parsed document append
byte-identical text. -/
theorem read_pipeline_deterministic_append (loaded : Except PyError PipelineDoc)
    (file : String) :
    read_pipeline loaded file
      = (file ++ (read_pipeline loaded "").1, (read_pipeline loaded "").2) := by
  have h := appendsOnly_read_pipeline loaded file ""
  rwa [String.append_empty] at h

end ADFDoc
